import Mathlib

/-!
Shallow embedding of the scheduled-trigger subsystem of
`src/packages/desktop/src-tauri/src/lib.rs`: the schedule configuration
store, the `update_schedule_settings` command, and the background poller
loop (`start_background_scheduler`), together with theorems settling the
specification claims about them.
-/

/-- `ScheduleSettings` (lib.rs lines 14-19): enabled flag, time string in
"HH:mm" form, and days as a vector of weekday numbers (0 = Sunday). The
Rust `Vec<u8>` of days is embedded as `List Nat`, the `u8` values as
`Nat`. -/
structure ScheduleSettings where
  enabled : Bool
  time : String
  days : List Nat
  deriving Repr, DecidableEq

/-- `impl Default for ScheduleSettings` (lib.rs lines 21-29): disabled,
time "18:00", days Monday through Friday. -/
def ScheduleSettings.default : ScheduleSettings :=
  { enabled := false, time := "18:00", days := [1, 2, 3, 4, 5] }

/-- Rust `str::split(':')` on the underlying character list: every
occurrence of the separator splits, the empty string yields one empty
part, and a trailing separator yields a trailing empty part. -/
def splitOnChar (sep : Char) : List Char → List (List Char)
  | [] => [[]]
  | c :: rest =>
    if c = sep then
      [] :: splitOnChar sep rest
    else
      match splitOnChar sep rest with
      | [] => [[c]]
      | p :: ps => (c :: p) :: ps

/-- Rust `str::parse::<u32>()`: an optional leading '+', then a nonempty
run of ASCII digits, rejecting anything else and values outside `u32`
range (a leading '-' is not accepted for an unsigned target). Returns the
parsed value as `Nat` (always `< 2^32`) or `none` for the `Err` case. -/
def parse_u32 (s : List Char) : Option Nat :=
  let digits := match s with
    | '+' :: rest => rest
    | other => other
  if digits.isEmpty then none
  else if digits.all Char.isDigit then
    let v := digits.foldl (fun acc c => acc * 10 + (c.toNat - 48)) 0
    if v < 4294967296 then some v else none
  else none

/-- The time-string parsing step of the poller (lib.rs lines 211-222):
split the configured time on ':'; exactly two parts, each parsing as a
`u32`, give the scheduled hour and minute; anything else is `none`. -/
def parseTime (time : String) : Option (Nat × Nat) :=
  match splitOnChar ':' time.data with
  | [h, m] =>
    match parse_u32 h, parse_u32 m with
    | some scheduled_hour, some scheduled_minute => some (scheduled_hour, scheduled_minute)
    | _, _ => none
  | _ => none

/-- The `Mutex<ScheduleSettings>` store inside `AppState` (lib.rs line
34): either healthy, holding the current settings, or poisoned with the
display string of the poison error. -/
inductive ScheduleStore where
  | healthy (settings : ScheduleSettings)
  | poisoned (err : String)
  deriving Repr, DecidableEq

/-- Result of `schedule_settings.lock()`: the settings snapshot on a
healthy mutex, the poison-error string otherwise. -/
def ScheduleStore.lock : ScheduleStore → Except String ScheduleSettings
  | .healthy settings => .ok settings
  | .poisoned err => .error err

/-- The `should_trigger` evaluation of one poller cycle (lib.rs lines
202-227): on a poisoned lock, `false`; otherwise `false` unless the
settings are enabled, the current day is contained in `days`, the time
string parses as two integers, and the current hour and minute both
equal the parsed values. Total: no branch raises. -/
def should_trigger (lockResult : Except String ScheduleSettings)
    (current_hour current_minute current_day : Nat) : Bool :=
  match lockResult with
  | .ok settings =>
    if !settings.enabled then false
    else if !settings.days.contains current_day then false
    else
      match parseTime settings.time with
      | some (scheduled_hour, scheduled_minute) =>
        current_hour == scheduled_hour && current_minute == scheduled_minute
      | none => false
  | .error _ => false

/-- The `update_schedule_settings` Tauri command (lib.rs lines 169-184):
lock the store and overwrite the held settings wholesale, returning
`Ok(())`; on a poisoned lock return the formatted error string and leave
the store as it was. No validation of the incoming settings is
performed. -/
def update_schedule_settings (store : ScheduleStore) (settings : ScheduleSettings) :
    ScheduleStore × Except String Unit :=
  match store with
  | .healthy _ => (.healthy settings, .ok ())
  | .poisoned e => (.poisoned e, .error ("Failed to update schedule settings: " ++ e))

/-- The local wall-clock snapshot taken at the top of a poller cycle
(lib.rs lines 195-199): `hour`, `minute`, `weekday` as
`num_days_from_sunday` (0 = Sunday), the epoch-millisecond timestamp,
and the local calendar date fields used by `format("%Y-%m-%d")`. -/
structure LocalNow where
  hour : Nat
  minute : Nat
  weekday : Nat
  timestampMillis : Int
  year : Nat
  month : Nat
  day : Nat
  deriving Repr, DecidableEq

/-- Decimal digit characters of `n`, most significant first, with
explicit fuel for structural recursion; `fuel > n` suffices. -/
def natDecCharsAux : Nat → Nat → List Char
  | 0, _ => []
  | fuel + 1, n =>
    if n < 10 then [Nat.digitChar n]
    else natDecCharsAux fuel (n / 10) ++ [Nat.digitChar (n % 10)]

/-- Rust `Display` for `u32` (the `\x7b\x7d` format specifier): the
decimal digit string of the value, no sign, no padding. -/
def u32Decimal (n : Nat) : String :=
  ⟨natDecCharsAux (n + 1) n⟩

/-- Zero-pad a number to at least two decimal digits, as the Rust
width-2 zero-fill format specifier and chrono `%m` / `%d` do. -/
def pad2 (n : Nat) : String :=
  if n < 10 then "0" ++ u32Decimal n else u32Decimal n

/-- Zero-pad a number to at least four decimal digits, as chrono `%Y`
does for non-negative years. -/
def pad4 (n : Nat) : String :=
  if n < 10 then "000" ++ u32Decimal n
  else if n < 100 then "00" ++ u32Decimal n
  else if n < 1000 then "0" ++ u32Decimal n
  else u32Decimal n

/-- `now.format("%Y-%m-%d")` (lib.rs line 199). -/
def formatYmd (year month day : Nat) : String :=
  pad4 year ++ "-" ++ pad2 month ++ "-" ++ pad2 day

/-- The `ScheduleTriggerPayload` struct (lib.rs lines 234-239):
epoch-millisecond timestamp, date label, and time label. -/
structure ScheduleTriggerPayload where
  timestamp : Int
  date : String
  time : String
  deriving Repr, DecidableEq

/-- The event-emission part of one poller cycle (lib.rs lines 229-250):
when `should_trigger` holds, exactly one payload is produced, carrying
the cycle's timestamp, the `%Y-%m-%d` date label, and the
`format!("\x7b\x7d:\x7b:02\x7d", hour, minute)` time label; otherwise no
payload. -/
def pollerCycleEvents (store : ScheduleStore) (now : LocalNow) :
    List ScheduleTriggerPayload :=
  if should_trigger store.lock now.hour now.minute now.weekday then
    [{ timestamp := now.timestampMillis,
       date := formatYmd now.year now.month now.day,
       time := u32Decimal now.hour ++ ":" ++ pad2 now.minute }]
  else []

/-- The `if let Err(e) = app_handle.emit(...)` handling (lib.rs lines
247-249): a failed emission produces one error-log line and nothing
else; a successful emission produces nothing. -/
def emitLog (emitResult : Except String Unit) : List String :=
  match emitResult with
  | .ok _ => []
  | .error e => ["[Scheduler] Failed to emit schedule-trigger event: " ++ e]

/-- One full poller cycle after the 60-second sleep: evaluate
`should_trigger`, emit on match (recording the emission outcome's log
lines), and leave the store untouched. The cycle is a total function:
no outcome of the emission is an error of the cycle itself. -/
def runCycle (store : ScheduleStore) (now : LocalNow)
    (emitResult : Except String Unit) :
    ScheduleStore × List ScheduleTriggerPayload × List String :=
  let events := pollerCycleEvents store now
  if events.isEmpty then (store, events, [])
  else (store, events, emitLog emitResult)

/-- The poller loop (lib.rs lines 190-251), unrolled over a finite list
of cycles, each given by its wall-clock snapshot and the outcome its
emission would have: cycles run in order, each against the same store
(the poller never writes it), accumulating payloads and log lines. -/
def runPoller (store : ScheduleStore) :
    List (LocalNow × Except String Unit) →
    ScheduleStore × List ScheduleTriggerPayload × List String
  | [] => (store, [], [])
  | (now, emitResult) :: rest =>
    let c := runCycle store now emitResult
    let r := runPoller c.1 rest
    (r.1, c.2.1 ++ r.2.1, c.2.2 ++ r.2.2)

/-- The store managed at process start (lib.rs lines 256-259):
`Mutex::new(ScheduleSettings::default())`, healthy. -/
def initialScheduleStore : ScheduleStore :=
  .healthy ScheduleSettings.default

/-- The data-model invariant as the spec states it: the configured time
parses as hour in [0,23] and minute in [0,59], and every day value lies
in {0..6}. -/
def satisfiesInvariant (s : ScheduleSettings) : Bool :=
  (match parseTime s.time with
   | some (h, m) => h ≤ 23 && m ≤ 59
   | none => false) && s.days.all (· ≤ 6)

/-- A configuration reachable in the store: the default installed at
process start, or any configuration installed over a reachable one by a
successful `update_schedule_settings`. -/
inductive ReachableConfig : ScheduleSettings → Prop where
  | init : ReachableConfig ScheduleSettings.default
  | step (prev next : ScheduleSettings) : ReachableConfig prev →
      (update_schedule_settings (.healthy prev) next).1 = .healthy next →
      ReachableConfig next

/-- Modelled from the spec: a two-character all-digit string, the "HH" /
"MM" component form the spec's `timeLabel` sentence requires. -/
def specTwoDigit (s : List Char) : Bool :=
  s.length = 2 && s.all Char.isDigit

/-- Modelled from the spec: an `HH:MM` label with a two-digit hour and a
two-digit minute, the form the spec claims for `timeLabel`. -/
def specHHMMLabel (s : String) : Bool :=
  match splitOnChar ':' s.data with
  | [h, m] => specTwoDigit h && specTwoDigit m
  | _ => false

/-- Modelled from the spec: a `YYYY-MM-DD` label, four-digit year and
two-digit month and day, the form the spec claims for `dateLabel`. -/
def specDateLabel (s : String) : Bool :=
  match splitOnChar '-' s.data with
  | [y, m, d] => (y.length = 4 && y.all Char.isDigit) && specTwoDigit m && specTwoDigit d
  | _ => false

/-! ### Helper lemmas -/

theorem splitOnChar_cons (sep c : Char) (rest : List Char) :
    splitOnChar sep (c :: rest) =
      if c = sep then [] :: splitOnChar sep rest
      else
        match splitOnChar sep rest with
        | [] => [[c]]
        | p :: ps => (c :: p) :: ps := rfl

theorem splitOnChar_ne_nil (sep : Char) (l : List Char) : splitOnChar sep l ≠ [] := by
  induction l with
  | nil => simp [splitOnChar]
  | cons c rest ih =>
    rw [splitOnChar_cons]
    split
    · simp
    · split <;> simp

theorem splitOnChar_of_not_mem (sep : Char) (l : List Char) (h : sep ∉ l) :
    splitOnChar sep l = [l] := by
  induction l with
  | nil => rfl
  | cons c rest ih =>
    rw [List.mem_cons, not_or] at h
    obtain ⟨h1, h2⟩ := h
    rw [splitOnChar_cons, if_neg (fun e => h1 e.symm), ih h2]

theorem splitOnChar_append (sep : Char) (l1 l2 : List Char) (h : sep ∉ l1) :
    splitOnChar sep (l1 ++ sep :: l2) = l1 :: splitOnChar sep l2 := by
  induction l1 with
  | nil =>
    simp only [List.nil_append]
    rw [splitOnChar_cons, if_pos rfl]
  | cons c rest ih =>
    rw [List.mem_cons, not_or] at h
    obtain ⟨h1, h2⟩ := h
    simp only [List.cons_append]
    rw [splitOnChar_cons, if_neg (fun e => h1 e.symm), ih h2]

theorem digitChar_isDigit : ∀ d, d < 10 → (Nat.digitChar d).isDigit = true := by decide

theorem natDecCharsAux_digits :
    ∀ (fuel n : Nat), n < fuel → (natDecCharsAux fuel n).all Char.isDigit = true := by
  intro fuel
  induction fuel with
  | zero => intro n h; omega
  | succ fuel ih =>
    intro n h
    unfold natDecCharsAux
    by_cases h10 : n < 10
    · rw [if_pos h10]
      simp [digitChar_isDigit n h10]
    · rw [if_neg h10]
      have hdiv : n / 10 < fuel := by
        have : n / 10 < n := Nat.div_lt_self (by omega) (by omega)
        omega
      rw [List.all_append, ih (n / 10) hdiv]
      simp [digitChar_isDigit (n % 10) (Nat.mod_lt n (by omega))]

theorem natDecCharsAux_length :
    ∀ (fuel n e : Nat), n < fuel → n < 10 ^ (e + 1) → (10 ^ e ≤ n ∨ e = 0) →
      (natDecCharsAux fuel n).length = e + 1 := by
  intro fuel
  induction fuel with
  | zero => intro n e h; omega
  | succ fuel ih =>
    intro n e hfuel hub hlb
    unfold natDecCharsAux
    by_cases h10 : n < 10
    · rw [if_pos h10]
      have he : e = 0 := by
        rcases hlb with hle | he0
        · by_contra hne
          have h1e : 10 ^ 1 ≤ 10 ^ e := Nat.pow_le_pow_right (by omega) (by omega)
          rw [pow_one] at h1e
          omega
        · exact he0
      simp [he]
    · rw [if_neg h10]
      have he : 1 ≤ e := by
        by_contra hne
        have he0 : e = 0 := by omega
        subst he0
        rw [pow_one] at hub
        omega
      have hdiv : n / 10 < fuel := by
        have : n / 10 < n := Nat.div_lt_self (by omega) (by omega)
        omega
      have hub2 : n / 10 < 10 ^ e := by
        rw [Nat.div_lt_iff_lt_mul (by omega : 0 < 10)]
        calc n < 10 ^ (e + 1) := hub
          _ = 10 ^ e * 10 := by ring
      have hlb2 : 10 ^ (e - 1) ≤ n / 10 ∨ e - 1 = 0 := by
        rcases hlb with hle | he0
        · left
          rw [Nat.le_div_iff_mul_le (by omega : 0 < 10)]
          calc 10 ^ (e - 1) * 10 = 10 ^ (e - 1 + 1) := by ring
            _ = 10 ^ e := by rw [show e - 1 + 1 = e by omega]
            _ ≤ n := hle
        · omega
      have hrec := ih (n / 10) (e - 1) hdiv (by rw [show e - 1 + 1 = e by omega]; exact hub2) hlb2
      rw [List.length_append, hrec]
      simp
      omega

theorem u32Decimal_digits (n : Nat) : (u32Decimal n).data.all Char.isDigit = true :=
  natDecCharsAux_digits (n + 1) n (Nat.lt_succ_self n)

theorem u32Decimal_length (n e : Nat) (hub : n < 10 ^ (e + 1))
    (hlb : 10 ^ e ≤ n ∨ e = 0) : (u32Decimal n).data.length = e + 1 :=
  natDecCharsAux_length (n + 1) n e (Nat.lt_succ_self n) hub hlb

theorem not_mem_of_all_isDigit (l : List Char) (c : Char)
    (hall : l.all Char.isDigit = true) (hc : c.isDigit = false) : c ∉ l := by
  intro hmem
  rw [List.all_eq_true] at hall
  have := hall c hmem
  rw [hc] at this
  exact Bool.noConfusion this

theorem pad2_twoDigit (m : Nat) (h : m < 100) : specTwoDigit (pad2 m).data = true := by
  have hdig := u32Decimal_digits m
  unfold pad2
  by_cases h10 : m < 10
  · have hlen := u32Decimal_length m 0 (by rw [pow_one]; omega) (Or.inr rfl)
    rw [if_pos h10, String.data_append]
    have h0 : ("0" : String).data = ['0'] := rfl
    rw [h0]
    simp [specTwoDigit, hlen, hdig]
  · have hlen := u32Decimal_length m 1
      (by rw [show (10:Nat) ^ (1 + 1) = 100 by norm_num]; omega)
      (Or.inl (by rw [pow_one]; omega))
    rw [if_neg h10]
    simp [specTwoDigit, hlen, hdig]

theorem pad4_fourDigit (y : Nat) (h : y < 10000) :
    (pad4 y).data.length = 4 ∧ (pad4 y).data.all Char.isDigit = true := by
  have hdig := u32Decimal_digits y
  unfold pad4
  by_cases h10 : y < 10
  · have hlen := u32Decimal_length y 0 (by rw [pow_one]; omega) (Or.inr rfl)
    rw [if_pos h10, String.data_append]
    have h0 : ("000" : String).data = ['0', '0', '0'] := rfl
    rw [h0]
    simp [hlen, hdig]
  · rw [if_neg h10]
    by_cases h100 : y < 100
    · have hlen := u32Decimal_length y 1
        (by rw [show (10:Nat) ^ (1 + 1) = 100 by norm_num]; omega)
        (Or.inl (by rw [pow_one]; omega))
      rw [if_pos h100, String.data_append]
      have h0 : ("00" : String).data = ['0', '0'] := rfl
      rw [h0]
      simp [hlen, hdig]
    · rw [if_neg h100]
      by_cases h1000 : y < 1000
      · have hlen := u32Decimal_length y 2
          (by rw [show (10:Nat) ^ (2 + 1) = 1000 by norm_num]; omega)
          (Or.inl (by rw [show (10:Nat) ^ 2 = 100 by norm_num]; omega))
        rw [if_pos h1000, String.data_append]
        have h0 : ("0" : String).data = ['0'] := rfl
        rw [h0]
        simp [hlen, hdig]
      · have hlen := u32Decimal_length y 3
          (by rw [show (10:Nat) ^ (3 + 1) = 10000 by norm_num]; omega)
          (Or.inl (by rw [show (10:Nat) ^ 3 = 1000 by norm_num]; omega))
        rw [if_neg h1000]
        simp [hlen, hdig]

theorem should_trigger_ok_eq (s : ScheduleSettings) (h m d : Nat) :
    should_trigger (Except.ok s) h m d =
      (s.enabled && s.days.contains d &&
        match parseTime s.time with
        | some (H, M) => h == H && m == M
        | none => false) := by
  simp only [should_trigger]
  cases he : s.enabled <;> cases hd : s.days.contains d <;> simp [he, hd]

theorem runCycle_store (store : ScheduleStore) (now : LocalNow)
    (emitResult : Except String Unit) : (runCycle store now emitResult).1 = store := by
  simp only [runCycle]
  split <;> rfl

theorem runCycle_events (store : ScheduleStore) (now : LocalNow)
    (emitResult : Except String Unit) :
    (runCycle store now emitResult).2.1 = pollerCycleEvents store now := by
  simp only [runCycle]
  split <;> rfl

theorem runPoller_cons (store : ScheduleStore) (now : LocalNow)
    (er : Except String Unit) (rest : List (LocalNow × Except String Unit)) :
    runPoller store ((now, er) :: rest) =
      ((runPoller store rest).1,
       pollerCycleEvents store now ++ (runPoller store rest).2.1,
       (runCycle store now er).2.2 ++ (runPoller store rest).2.2) := by
  show (let c := runCycle store now er
        let r := runPoller c.1 rest
        (r.1, c.2.1 ++ r.2.1, c.2.2 ++ r.2.2)) = _
  simp only [runCycle_store, runCycle_events]

theorem specHHMMLabel_decimal (hour minute : Nat) (hm : minute ≤ 59)
    (h10 : 10 ≤ hour) (h23 : hour ≤ 23) :
    specHHMMLabel (u32Decimal hour ++ ":" ++ pad2 minute) = true := by
  have hhdig := u32Decimal_digits hour
  have hhlen := u32Decimal_length hour 1
    (by rw [show (10:Nat) ^ (1 + 1) = 100 by norm_num]; omega)
    (Or.inl (by rw [pow_one]; omega))
  have hmm := pad2_twoDigit minute (by omega)
  simp only [specTwoDigit, Bool.and_eq_true, decide_eq_true_eq] at hmm
  have hcolonA : ':' ∉ (u32Decimal hour).data :=
    not_mem_of_all_isDigit _ _ hhdig (by decide)
  have hdata : (u32Decimal hour ++ ":" ++ pad2 minute).data
      = (u32Decimal hour).data ++ ':' :: (pad2 minute).data := by
    rw [String.data_append, String.data_append]
    rw [show (":" : String).data = [':'] from rfl]
    rw [List.append_assoc, List.singleton_append]
  unfold specHHMMLabel
  rw [hdata, splitOnChar_append _ _ _ hcolonA,
      splitOnChar_of_not_mem _ _ (not_mem_of_all_isDigit _ _ hmm.2 (by decide))]
  simp [specTwoDigit, hhlen, hhdig, hmm.1, hmm.2]

theorem specDateLabel_formatYmd (y mo d : Nat) (hy : y ≤ 9999)
    (hmo : mo ≤ 99) (hd : d ≤ 99) :
    specDateLabel (formatYmd y mo d) = true := by
  obtain ⟨hylen, hydig⟩ := pad4_fourDigit y (by omega)
  have hmo2 := pad2_twoDigit mo (by omega)
  have hd2 := pad2_twoDigit d (by omega)
  simp only [specTwoDigit, Bool.and_eq_true, decide_eq_true_eq] at hmo2 hd2
  have hdashA : '-' ∉ (pad4 y).data := not_mem_of_all_isDigit _ _ hydig (by decide)
  have hdashB : '-' ∉ (pad2 mo).data := not_mem_of_all_isDigit _ _ hmo2.2 (by decide)
  have hdashC : '-' ∉ (pad2 d).data := not_mem_of_all_isDigit _ _ hd2.2 (by decide)
  have hdata : (formatYmd y mo d).data
      = (pad4 y).data ++ '-' :: ((pad2 mo).data ++ '-' :: (pad2 d).data) := by
    unfold formatYmd
    rw [String.data_append, String.data_append, String.data_append, String.data_append]
    rw [show ("-" : String).data = ['-'] from rfl]
    simp [List.append_assoc]
  unfold specDateLabel
  rw [hdata, splitOnChar_append _ _ _ hdashA, splitOnChar_append _ _ _ hdashB,
      splitOnChar_of_not_mem _ _ hdashC]
  simp [specTwoDigit, hylen, hydig, hmo2.1, hmo2.2, hd2.1, hd2.2]

/-! ### Claim theorems -/

/-- C1: a poller cycle fires exactly when the settings are enabled, the
current day-of-week (0 = Sunday) is contained in the active days, the
configured time string parses as two integers H:M, and the current hour
equals H and the current minute equals M; in particular a disabled
configuration never fires, and a day outside the active days never
fires even when hour and minute match. -/
theorem c1_should_trigger_iff :
    (∀ (s : ScheduleSettings) (hour minute day : Nat),
      should_trigger (Except.ok s) hour minute day = true ↔
        s.enabled = true ∧ s.days.contains day = true ∧
        ∃ H M, parseTime s.time = some (H, M) ∧ hour = H ∧ minute = M) ∧
    (∀ (s : ScheduleSettings) (hour minute day : Nat),
      s.enabled = false → should_trigger (Except.ok s) hour minute day = false) ∧
    (∀ (s : ScheduleSettings) (hour minute day : Nat),
      s.days.contains day = false →
        should_trigger (Except.ok s) hour minute day = false) := by
  refine ⟨?_, ?_, ?_⟩
  · intro s hour minute day
    rw [should_trigger_ok_eq]
    constructor
    · intro ht
      rw [Bool.and_eq_true, Bool.and_eq_true] at ht
      obtain ⟨⟨he, hd⟩, hm⟩ := ht
      refine ⟨he, hd, ?_⟩
      cases hpt : parseTime s.time with
      | none => rw [hpt] at hm; simp at hm
      | some p =>
        obtain ⟨H, M⟩ := p
        rw [hpt] at hm
        have hm2 : (hour == H && minute == M) = true := hm
        rw [Bool.and_eq_true, beq_iff_eq, beq_iff_eq] at hm2
        exact ⟨H, M, rfl, hm2.1, hm2.2⟩
    · rintro ⟨he, hd, H, M, hpt, rfl, rfl⟩
      rw [he, hd, hpt]
      simp
  · intro s hour minute day he
    rw [should_trigger_ok_eq, he]
    simp
  · intro s hour minute day hd
    rw [should_trigger_ok_eq, hd]
    simp

/-- C1 witness: the iff and both never-fire corollaries at concrete
inputs — Wednesday 18:00 fires on an enabled Mon-Fri 18:00 schedule,
and the same time does not fire when disabled or when Wednesday is
removed from the active days. -/
theorem c1_should_trigger_iff_witness :
    should_trigger (Except.ok ⟨true, "18:00", [1, 2, 3, 4, 5]⟩) 18 0 3 = true ∧
    should_trigger (Except.ok ⟨false, "18:00", [1, 2, 3, 4, 5]⟩) 18 0 3 = false ∧
    should_trigger (Except.ok ⟨true, "18:00", [1, 2, 4, 5]⟩) 18 0 3 = false :=
  ⟨(c1_should_trigger_iff.1 ⟨true, "18:00", [1, 2, 3, 4, 5]⟩ 18 0 3).2
      ⟨rfl, by decide, 18, 0, by decide, rfl, rfl⟩,
   c1_should_trigger_iff.2.1 ⟨false, "18:00", [1, 2, 3, 4, 5]⟩ 18 0 3 rfl,
   c1_should_trigger_iff.2.2 ⟨true, "18:00", [1, 2, 4, 5]⟩ 18 0 3 (by decide)⟩

/-- C2: `update_schedule_settings` succeeds for every input
configuration when the store's mutex is healthy (no validation of any
kind), and returns an error string exactly when the mutex is
poisoned. -/
theorem c2_update_error_only_poison :
    (∀ (prior settings : ScheduleSettings),
      (update_schedule_settings (.healthy prior) settings).2 = Except.ok ()) ∧
    (∀ (e : String) (settings : ScheduleSettings),
      (update_schedule_settings (.poisoned e) settings).2 =
        Except.error ("Failed to update schedule settings: " ++ e)) ∧
    (∀ (store : ScheduleStore) (settings : ScheduleSettings) (msg : String),
      (update_schedule_settings store settings).2 = Except.error msg →
        ∃ e, store = ScheduleStore.poisoned e ∧
          msg = "Failed to update schedule settings: " ++ e) := by
  refine ⟨fun _ _ => rfl, fun _ _ => rfl, ?_⟩
  intro store settings msg h
  cases store with
  | healthy s => exact absurd h (by simp [update_schedule_settings])
  | poisoned e =>
    simp only [update_schedule_settings] at h
    injection h with h
    exact ⟨e, rfl, h.symm⟩

/-- C2 witness: on a concretely poisoned store the error case of the
characterisation is realised. -/
theorem c2_update_error_only_poison_witness :
    ∃ e, ScheduleStore.poisoned "poisoned lock" = ScheduleStore.poisoned e ∧
      "Failed to update schedule settings: poisoned lock" =
        "Failed to update schedule settings: " ++ e :=
  c2_update_error_only_poison.2.2 (ScheduleStore.poisoned "poisoned lock")
    ScheduleSettings.default "Failed to update schedule settings: poisoned lock" rfl

/-- C3: a successful update replaces the stored configuration
wholesale: the store afterwards holds exactly the new settings, and any
subsequent read observes the new value of all three fields, never a
field of the prior configuration. -/
theorem c3_update_wholesale :
    ∀ (prior c : ScheduleSettings),
      (update_schedule_settings (.healthy prior) c).2 = Except.ok () ∧
      (update_schedule_settings (.healthy prior) c).1.lock = Except.ok c ∧
      ∀ r, (update_schedule_settings (.healthy prior) c).1.lock = Except.ok r →
        r.enabled = c.enabled ∧ r.time = c.time ∧ r.days = c.days := by
  intro prior c
  refine ⟨rfl, rfl, ?_⟩
  intro r h
  simp only [update_schedule_settings, ScheduleStore.lock] at h
  injection h with h
  subst h
  exact ⟨rfl, rfl, rfl⟩

/-- C3 witness: updating the default store with a concrete
configuration makes a read observe exactly that configuration's three
fields. -/
theorem c3_update_wholesale_witness :
    (⟨true, "09:30", [0, 6]⟩ : ScheduleSettings).enabled = true ∧
    (⟨true, "09:30", [0, 6]⟩ : ScheduleSettings).time = "09:30" ∧
    (⟨true, "09:30", [0, 6]⟩ : ScheduleSettings).days = [0, 6] :=
  (c3_update_wholesale ScheduleSettings.default ⟨true, "09:30", [0, 6]⟩).2.2
    ⟨true, "09:30", [0, 6]⟩ rfl

/-- C4: a malformed configured time string (one that does not split on
':' into exactly two u32-parseable parts) never produces a match, for
every current time; the evaluation is a total function, so no error or
panic can surface. -/
theorem c4_malformed_time_no_match :
    ∀ (s : ScheduleSettings) (hour minute day : Nat),
      parseTime s.time = none →
      should_trigger (Except.ok s) hour minute day = false := by
  intro s hour minute day hpt
  rw [should_trigger_ok_eq, hpt]
  simp

/-- C4 witness: the spec's example "abc" is unparseable and yields
non-match on an otherwise always-firing configuration. -/
theorem c4_malformed_time_no_match_witness :
    should_trigger (Except.ok ⟨true, "abc", [0, 1, 2, 3, 4, 5, 6]⟩) 12 30 3 = false :=
  c4_malformed_time_no_match ⟨true, "abc", [0, 1, 2, 3, 4, 5, 6]⟩ 12 30 3 (by decide)

/-- C5: with the configuration enabled, time "18:00", days Mon-Fri, a
cycle at Wednesday 18:00 emits exactly one payload whose time label is
"18:00", and a cycle at Wednesday 18:01 emits none — for every
timestamp and calendar date of the cycle. -/
theorem c5_wednesday_example :
    ∀ (ts : Int) (y mo d : Nat),
      pollerCycleEvents (.healthy ⟨true, "18:00", [1, 2, 3, 4, 5]⟩)
          ⟨18, 0, 3, ts, y, mo, d⟩ =
        [⟨ts, formatYmd y mo d, "18:00"⟩] ∧
      pollerCycleEvents (.healthy ⟨true, "18:00", [1, 2, 3, 4, 5]⟩)
          ⟨18, 1, 3, ts, y, mo, d⟩ = [] := by
  intro ts y mo d
  constructor
  · simp only [pollerCycleEvents]
    rw [if_pos (by decide), show u32Decimal 18 ++ ":" ++ pad2 0 = "18:00" by decide]
  · simp only [pollerCycleEvents]
    rw [if_neg (by decide)]

/-- C6 counterexample: a firing at hour 8, minute 5 (time string
"8:05") emits the time label "8:05", whose hour part is a single digit;
the label is therefore not of the claimed two-digit-hour HH:MM form. -/
theorem c6_counterexample :
    (pollerCycleEvents (.healthy ⟨true, "8:05", [0]⟩)
        ⟨8, 5, 0, 0, 2026, 1, 4⟩).map ScheduleTriggerPayload.time = ["8:05"] ∧
    specHHMMLabel "8:05" = false := by
  exact ⟨rfl, by decide⟩

/-- C6 amended: every emitted payload carries the cycle's
epoch-millisecond timestamp, the date label rendered by chrono
`%Y-%m-%d` (which is of YYYY-MM-DD shape for any in-range local date),
and a time label of unpadded hour, ':', two-digit minute — which has
the claimed two-digit-hour HH:MM shape exactly when the hour is at
least 10. -/
theorem c6_payload_fields :
    ∀ (store : ScheduleStore) (now : LocalNow) (ev : ScheduleTriggerPayload),
      ev ∈ pollerCycleEvents store now →
      ev.timestamp = now.timestampMillis ∧
      ev.date = formatYmd now.year now.month now.day ∧
      ev.time = u32Decimal now.hour ++ ":" ++ pad2 now.minute ∧
      (now.minute ≤ 59 → 10 ≤ now.hour → now.hour ≤ 23 →
        specHHMMLabel ev.time = true) ∧
      (now.year ≤ 9999 → now.month ≤ 99 → now.day ≤ 99 →
        specDateLabel ev.date = true) := by
  intro store now ev hmem
  unfold pollerCycleEvents at hmem
  by_cases ht : should_trigger store.lock now.hour now.minute now.weekday = true
  · rw [if_pos ht, List.mem_singleton] at hmem
    subst hmem
    refine ⟨rfl, rfl, rfl, ?_, ?_⟩
    · intro hm h10 h23
      exact specHHMMLabel_decimal now.hour now.minute hm h10 h23
    · intro hy hmo hd
      exact specDateLabel_formatYmd now.year now.month now.day hy hmo hd
  · rw [if_neg ht] at hmem
    exact absurd hmem (List.not_mem_nil ev)

/-- C6 amended witness: a concrete firing at Wednesday 18:00,
2026-01-07, realises both label-shape conclusions. -/
theorem c6_payload_fields_witness :
    specHHMMLabel "18:00" = true ∧ specDateLabel "2026-01-07" = true :=
  have h := c6_payload_fields (.healthy ⟨true, "18:00", [1, 2, 3, 4, 5]⟩)
      ⟨18, 0, 3, 1700000000000, 2026, 1, 7⟩
      ⟨1700000000000, "2026-01-07", "18:00"⟩ (by decide)
  ⟨h.2.2.2.1 (by decide) (by decide) (by decide),
   h.2.2.2.2 (by decide) (by decide) (by decide)⟩

/-- C7 counterexample: the configuration with time "99:99" and day
value 9 is reachable by a single successful update from the default,
yet violates the hour/minute/day-range invariant, refuting the claim
that every reachable configuration satisfies it. -/
theorem c7_counterexample :
    ReachableConfig ⟨true, "99:99", [9]⟩ ∧
    satisfiesInvariant ⟨true, "99:99", [9]⟩ = false :=
  ⟨ReachableConfig.step ScheduleSettings.default ⟨true, "99:99", [9]⟩
      ReachableConfig.init rfl,
   by decide⟩

/-- C7 amended: the default configuration satisfies the invariant, but
`update_schedule_settings` performs no validation, so every
configuration whatsoever — including invariant-violating ones — is
reachable in the store. -/
theorem c7_default_invariant_only :
    satisfiesInvariant ScheduleSettings.default = true ∧
    ∀ c : ScheduleSettings, ReachableConfig c := by
  refine ⟨by decide, ?_⟩
  intro c
  exact ReachableConfig.step ScheduleSettings.default c ReachableConfig.init rfl

/-- C8: the store created at process start holds exactly the default
configuration: disabled, time "18:00", days Monday through Friday. -/
theorem c8_initial_default :
    initialScheduleStore = .healthy ⟨false, "18:00", [1, 2, 3, 4, 5]⟩ ∧
    ScheduleSettings.default.enabled = false ∧
    ScheduleSettings.default.time = "18:00" ∧
    ScheduleSettings.default.days = [1, 2, 3, 4, 5] :=
  ⟨rfl, rfl, rfl, rfl⟩

/-- C9: a failed emission is logged and otherwise ignored: the cycle is
a total function whose resulting store is unchanged, the failure
produces exactly the logged error line when an event fired, and the
loop continues with the remaining cycles exactly as the unrolled poller
prescribes. -/
theorem c9_emit_failure_ignored :
    ∀ (store : ScheduleStore) (now : LocalNow) (e : String)
      (rest : List (LocalNow × Except String Unit)),
      (runCycle store now (Except.error e)).1 = store ∧
      (pollerCycleEvents store now ≠ [] →
        (runCycle store now (Except.error e)).2.2 =
          ["[Scheduler] Failed to emit schedule-trigger event: " ++ e]) ∧
      runPoller store ((now, Except.error e) :: rest) =
        ((runPoller store rest).1,
         pollerCycleEvents store now ++ (runPoller store rest).2.1,
         (runCycle store now (Except.error e)).2.2 ++ (runPoller store rest).2.2) := by
  intro store now e rest
  refine ⟨runCycle_store store now (Except.error e), ?_, runPoller_cons store now (Except.error e) rest⟩
  intro hne
  unfold runCycle
  rw [if_neg (by simpa using hne)]
  rfl

/-- C9 witness: a firing cycle whose emission fails produces exactly
the logged error line. -/
theorem c9_emit_failure_ignored_witness :
    (runCycle (.healthy ⟨true, "18:00", [1, 2, 3, 4, 5]⟩)
        ⟨18, 0, 3, 0, 2026, 1, 7⟩ (Except.error "no listener")).2.2 =
      ["[Scheduler] Failed to emit schedule-trigger event: no listener"] :=
  (c9_emit_failure_ignored (.healthy ⟨true, "18:00", [1, 2, 3, 4, 5]⟩)
      ⟨18, 0, 3, 0, 2026, 1, 7⟩ "no listener" []).2.1 (by decide)

/-- C10: under a poisoned lock a cycle evaluates to non-match: the
match value is false, no event is emitted, no log line is produced, the
store passes through unchanged, and the unrolled poller behaves on the
remaining cycles exactly as if the poisoned cycle had not occurred. -/
theorem c10_poisoned_lock_skips :
    ∀ (e : String) (now : LocalNow) (emitResult : Except String Unit)
      (rest : List (LocalNow × Except String Unit)),
      should_trigger (ScheduleStore.poisoned e).lock now.hour now.minute now.weekday
          = false ∧
      pollerCycleEvents (.poisoned e) now = [] ∧
      runCycle (.poisoned e) now emitResult = (.poisoned e, [], []) ∧
      runPoller (.poisoned e) ((now, emitResult) :: rest) =
        runPoller (.poisoned e) rest := by
  intro e now emitResult rest
  have h1 : should_trigger (ScheduleStore.poisoned e).lock now.hour now.minute
      now.weekday = false := rfl
  have h2 : pollerCycleEvents (.poisoned e) now = [] := by
    unfold pollerCycleEvents
    rw [if_neg (by simp [h1])]
  have h3 : runCycle (.poisoned e) now emitResult = (.poisoned e, [], []) := by
    unfold runCycle
    rw [h2]
    rfl
  refine ⟨h1, h2, h3, ?_⟩
  rw [runPoller_cons, h2, h3]
  simp
